import Mathlib

/-!
Shallow embedding of the text layout-and-rendering engine of the `tofi`
entry widget, covering the hex-color parser (`hex_to_color`), the overflow
test (`size_overflows`), the result-drawing loop of
`entry_backend_harfbuzz_update`, the masked-input buffer construction, the
match-highlight extents bookkeeping, the fatal/non-fatal error handling of
`entry_backend_harfbuzz_init`, and the bounded font variation/feature token
parsing.  Continuous quantities (cairo doubles) are modelled as rationals;
C unsigned 32-bit arithmetic is modelled as Nat with explicit reduction
modulo 2 ^ 32.
-/

namespace Tofi

/-- Character-level test for a hexadecimal digit, by code point:
digits 0-9 (48-57), lowercase a-f (97-102), uppercase A-F (65-70).
This is the digit set accepted by `strtol` with base 16. -/
def isHexDigit (c : Char) : Bool :=
  decide ((48 ≤ c.toNat ∧ c.toNat ≤ 57) ∨ (97 ≤ c.toNat ∧ c.toNat ≤ 102) ∨
    (65 ≤ c.toNat ∧ c.toNat ≤ 70))

/-- Numeric value of a hexadecimal digit character (0 for non-digits;
`strtol` never consumes a non-digit, so that branch is never used on
consumed characters). -/
def hexVal (c : Char) : ℕ :=
  if 48 ≤ c.toNat ∧ c.toNat ≤ 57 then c.toNat - 48
  else if 97 ≤ c.toNat ∧ c.toNat ≤ 102 then c.toNat - 97 + 10
  else if 65 ≤ c.toNat ∧ c.toNat ≤ 70 then c.toNat - 65 + 10
  else 0

/-- C `isspace` in the default locale: space (32) and the control
characters 9-13, as skipped by `strtol` before the number. -/
def isSpace (c : Char) : Bool :=
  decide (c.toNat = 32 ∨ (9 ≤ c.toNat ∧ c.toNat ≤ 13))

/-- Accumulating hexadecimal digit scan: consumes leading hex digits,
stops at the first non-digit.  This is the digit-consuming core of
`strtol(str, NULL, 16)`. -/
def parseHexDigits : List Char → ℕ → ℕ
  | [], acc => acc
  | c :: cs, acc =>
    if isHexDigit c then parseHexDigits cs (16 * acc + hexVal c) else acc

/-- Magnitude part of `strtol(str, NULL, 16)` after sign handling: an
optional `0x`/`0X` marker is skipped, then hex digits are consumed.
When the characters after `0x` start with a non-digit the scan yields 0
either way, so the returned value agrees with C `strtol`.  The inputs
reaching this model are at most 8 digits, far below `LONG_MAX`, so the
overflow clamping of `strtol` is unreachable. -/
def strtolHexNat (s : List Char) : ℕ :=
  match s with
  | c0 :: c1 :: rest =>
    if c0 = '0' ∧ (c1 = 'x' ∨ c1 = 'X') then parseHexDigits rest 0
    else parseHexDigits (c0 :: c1 :: rest) 0
  | _ => parseHexDigits s 0

/-- Value computed by `strtol(str, NULL, 16)`: skip leading whitespace,
handle an optional sign, then parse the hex magnitude. -/
def strtol16 (s : List Char) : ℤ :=
  match s.dropWhile isSpace with
  | [] => 0
  | c :: rest =>
    if c = '-' then -(strtolHexNat rest : ℤ)
    else if c = '+' then (strtolHexNat rest : ℤ)
    else (strtolHexNat (c :: rest) : ℤ)

/-- The `struct color` of the repository: four float channels modelled as
rationals.  All -1 is the parse-failure sentinel. -/
structure color where
  r : ℚ
  g : ℚ
  b : ℚ
  a : ℚ
deriving DecidableEq

/-- C conversion of a `long` value to `uint32_t` (the assignment
`uint32_t val = strtol(...)`): reduction modulo 2 ^ 32. -/
def u32_of_long (n : ℤ) : ℕ :=
  (n % 2 ^ 32).toNat

/-- The statement pair `val <<= 8; val |= 0xFFu` on a `uint32_t`. -/
def shl8_or_ff (v : ℕ) : ℕ :=
  (v <<< 8) % 2 ^ 32 ||| 0xFF

/-- Final unpacking of `hex_to_color`: each byte of the 32-bit RGBA word
is isolated (the C mask-and-shift `(val & 0xFF000000u) >> 24` equals
division by 2 ^ 24 followed by reduction mod 2 ^ 8 on a 32-bit value,
and similarly for the other bytes) and divided by 255. -/
def color_of_u32 (val : ℕ) : color :=
  { r := (((val / 2 ^ 24) % 2 ^ 8 : ℕ) : ℚ) / 255
    g := (((val / 2 ^ 16) % 2 ^ 8 : ℕ) : ℚ) / 255
    b := (((val / 2 ^ 8) % 2 ^ 8 : ℕ) : ℚ) / 255
    a := ((val % 2 ^ 8 : ℕ) : ℚ) / 255 }

/-- The function `hex_to_color` of `color.c`: strip an optional leading
`#`, branch on the remaining length.  Length 3 and 4 duplicate each
digit character into a doubled buffer before parsing; lengths 3 and 6
append a full alpha byte via `val <<= 8; val |= 0xFF`; any other length
returns the all -1 sentinel color. -/
def hex_to_color (input : List Char) : color :=
  let hex := if input.head? = some '#' then input.tail else input
  let len := hex.length
  if len = 3 then
    color_of_u32 (shl8_or_ff (u32_of_long (strtol16
      [hex.getD 0 ' ', hex.getD 0 ' ', hex.getD 1 ' ', hex.getD 1 ' ',
        hex.getD 2 ' ', hex.getD 2 ' '])))
  else if len = 4 then
    color_of_u32 (u32_of_long (strtol16
      [hex.getD 0 ' ', hex.getD 0 ' ', hex.getD 1 ' ', hex.getD 1 ' ',
        hex.getD 2 ' ', hex.getD 2 ' ', hex.getD 3 ' ', hex.getD 3 ' ']))
  else if len = 6 then
    color_of_u32 (shl8_or_ff (u32_of_long (strtol16 hex)))
  else if len = 8 then
    color_of_u32 (u32_of_long (strtol16 hex))
  else { r := -1, g := -1, b := -1, a := -1 }

/-- The all -1 color returned by `hex_to_color` on a rejected length. -/
def hexColorSentinel : color :=
  { r := -1, g := -1, b := -1, a := -1 }

/-- State read by `size_overflows`: the orientation flag, the current
cairo transform origin (`mat.x0`, `mat.y0`) and the clip rectangle of
the entry. -/
structure overflow_env where
  horizontal : Bool
  x0 : ℚ
  y0 : ℚ
  clip_x : ℚ
  clip_y : ℚ
  clip_width : ℚ
  clip_height : ℚ
deriving DecidableEq

/-- The function `size_overflows` of `harfbuzz.c`: on the scroll axis,
compare transform origin plus candidate extent against clip origin plus
clip size; strictly greater is overflow. -/
def size_overflows (o : overflow_env) (width height : ℚ) : Bool :=
  if o.horizontal then
    decide (o.x0 + width > o.clip_x + o.clip_width)
  else
    decide (o.y0 + height > o.clip_y + o.clip_height)

/-- Error-code-to-string lookup `get_ft_error_string`: linear scan of the
`ft_errors` table, falling back to a fixed unknown-error string. -/
def get_ft_error_string : List (ℤ × String) → ℤ → String
  | [], _ => "Unknown FT error"
  | (code, msg) :: rest, err =>
    if code = err then msg else get_ft_error_string rest err

/-- Outcome of the font-setup steps of `entry_backend_harfbuzz_init`:
either the process exits after logging one fatal message, or init
proceeds, possibly having logged non-fatal error messages. -/
inductive ft_init_result where
  | fatal (message : String)
  | ok (logged_errors : List String)
deriving DecidableEq

/-- Font-setup error handling of `entry_backend_harfbuzz_init`, driven by
the error codes returned by `FT_Init_FreeType`, `FT_New_Face` and
`FT_Set_Char_Size`: a nonzero library-init or font-open code logs a
backend error string and exits; a nonzero size-setting code only logs
the backend error string, after which init continues. -/
def entry_backend_harfbuzz_init_font (table : List (ℤ × String))
    (init_err new_face_err set_char_size_err : ℤ) : ft_init_result :=
  if init_err ≠ 0 then
    .fatal ("Error initialising FreeType: " ++ get_ft_error_string table init_err)
  else if new_face_err ≠ 0 then
    .fatal ("Error loading font: " ++ get_ft_error_string table new_face_err)
  else
    .ok (if set_char_size_err ≠ 0 then
      ["Error setting font size: " ++ get_ft_error_string table set_char_size_err]
    else [])

/-- Whether a font-setup outcome terminated the process. -/
def ft_init_fatal : ft_init_result → Bool
  | .fatal _ => true
  | .ok _ => false

/-- The `strtok_r` parsing loops for font variations and font features in
`entry_backend_harfbuzz_init` (both loops have identical structure):
while a token remains and the element count is below the array capacity,
a token that parses is stored at the current count (the write index) and
the count advances; a malformed token is logged and skipped.  Once the
count reaches the capacity the loop exits and the remaining tokens are
dropped.  Returns (writes as index-token pairs, logged bad tokens,
dropped tokens). -/
def parse_token_loop (valid : String → Bool) (cap : ℕ) :
    List String → ℕ → List (ℕ × String) × List String × List String
  | [], _ => ([], [], [])
  | tok :: rest, n =>
    if n < cap then
      if valid tok then
        let r := parse_token_loop valid cap rest (n + 1)
        ((n, tok) :: r.1, r.2.1, r.2.2)
      else
        let r := parse_token_loop valid cap rest n
        (r.1, tok :: r.2.1, r.2.2)
    else ([], [], tok :: rest)

/-- The masked-input construction of `entry_backend_harfbuzz_update`:
the double loop writes the masking glyph's UTF-8 bytes once per input
character, in order, with no separator. -/
def write_glyphs (glyph : List Char) : ℕ → List Char
  | 0 => []
  | n + 1 => glyph ++ write_glyphs glyph n

/-- The heap buffer built for masked input: the repeated glyph bytes
followed by the terminating NUL written at `buf[char_size * nchars]`. -/
def masked_input_buf (glyph : List Char) (nchars : ℕ) : List Char :=
  write_glyphs glyph nchars ++ [Char.ofNat 0]

/-- Choice of the string rendered for the entry text in
`entry_backend_harfbuzz_update`: the placeholder when the input is
empty, the masked buffer contents when input hiding is on, the raw
input otherwise. -/
def rendered_input_text (input_utf8 placeholder_text hidden_character_utf8 : List Char)
    (input_utf32_length : ℕ) (hide_input : Bool) : List Char :=
  if input_utf8.length = 0 then placeholder_text
  else if hide_input then write_glyphs hidden_character_utf8 input_utf32_length
  else input_utf8

/-- Host state read by the result-drawing loop of
`entry_backend_harfbuzz_update`: result-count mode, result list size,
scroll offset, selection, highlight alpha, orientation, clip rectangle,
font height and row spacing. -/
structure loop_env where
  num_results : ℕ
  results_count : ℕ
  first_result : ℕ
  selection : ℕ
  highlight_alpha : ℚ
  horizontal : Bool
  clip_x : ℚ
  clip_y : ℚ
  clip_width : ℚ
  clip_height : ℚ
  font_height : ℚ
  result_spacing : ℚ

/-- The `size_overflows` view of the loop state: orientation and clip
from the entry, transform origin from the running translation. -/
def loop_clip (e : loop_env) (x y : ℚ) : overflow_env :=
  ⟨e.horizontal, x, y, e.clip_x, e.clip_y, e.clip_width, e.clip_height⟩

/-- Number of loop iterations considered by the result loop: all results
in auto-fit mode, else the smaller of the configured count and the
result count. -/
def loop_num_results (e : loop_env) : ℕ :=
  if e.num_results = 0 then e.results_count else min e.num_results e.results_count

/-- One-to-one model of the result loop of `entry_backend_harfbuzz_update`
(the `for (i = 0; i < num_results; i++)` loop): state is the iteration
index `i`, the transform origin `x`, `y`, and the x-advance `la` of the
previously rendered run (used by the horizontal translation).  `adv i`
is the measured x-advance of result row `i` as produced by shaping; row
text never affects vertical row height, which is the constant font
height.  Each iteration first advances the transform along the scroll
axis, then applies, in order: the auto-fit pre-check
(`size_overflows(entry, 0, 0)`), the fixed-count bound check, the
last-page check (`index >= results.count`), and then draws the row -
unconditionally in fixed-count mode and for the match-highlighted
selected row, guarded by `size_overflows(entry, 0, font_height)` in
vertical auto-fit, and guarded by the speculative
`size_overflows(entry, extents.x_advance, 0)` after off-screen rendering
in horizontal auto-fit.  The returned value is `i` at loop exit, which
the code records as `num_results_drawn`. -/
def loop_go (e : loop_env) (adv : ℕ → ℚ) : ℕ → ℕ → ℚ → ℚ → ℚ → ℕ
  | 0, i, _, _, _ => i
  | fuel + 1, i, x, y, la =>
    let x1 := if e.horizontal then x + la + e.result_spacing else x
    let y1 := if e.horizontal then y else y + e.font_height + e.result_spacing
    if e.num_results = 0 ∧ size_overflows (loop_clip e x1 y1) 0 0 = true then i
    else if e.num_results ≠ 0 ∧ e.num_results ≤ i then i
    else if e.results_count ≤ i + e.first_result then i
    else if i ≠ e.selection ∨ e.highlight_alpha = 0 then
      if e.num_results ≠ 0 then loop_go e adv fuel (i + 1) x1 y1 (adv i)
      else if e.horizontal = false then
        if size_overflows (loop_clip e x1 y1) 0 e.font_height = true then i
        else loop_go e adv fuel (i + 1) x1 y1 (adv i)
      else
        if size_overflows (loop_clip e x1 y1) (adv i) 0 = true then i
        else loop_go e adv fuel (i + 1) x1 y1 (adv i)
    else loop_go e adv fuel (i + 1) x1 y1 (adv i)

/-- The value stored in `entry->num_results_drawn` after the result loop,
starting from transform origin (`x0`, `y0`) and previous run advance
`la0` (the input row's clamped x-advance). -/
def num_results_drawn (e : loop_env) (adv : ℕ → ℚ) (x0 y0 la0 : ℚ) : ℕ :=
  loop_go e adv (loop_num_results e) 0 x0 y0 la0

/-- A vertical row `j` (0-based) fits when its far edge - the origin
after `j + 1` downward translations by font height plus spacing, plus
the row's font height - does not pass the clip boundary. -/
def row_fits (e : loop_env) (y0 : ℚ) (j : ℕ) : Prop :=
  y0 + ((j : ℚ) + 1) * (e.font_height + e.result_spacing) + e.font_height ≤
    e.clip_y + e.clip_height

/-- The three text themes a non-highlighted result row can use. -/
inductive result_theme where
  | selection_theme
  | alternate_result_theme
  | default_result_theme
deriving DecidableEq

/-- Theme choice for a drawn result row (`harfbuzz.c` lines 427-435): the
on-screen selected row takes the selection theme, otherwise the absolute
result index `i + first_result` picks the alternate theme when odd and
the default theme when even. -/
def pick_result_theme (i selection first_result : ℕ) : result_theme :=
  let index := i + first_result
  if i = selection then .selection_theme
  else if index % 2 ≠ 0 then .alternate_result_theme
  else .default_result_theme

/-- Cairo text extents, in canvas units. -/
structure text_extents where
  x_bearing : ℚ
  y_bearing : ℚ
  width : ℚ
  height : ℚ
  x_advance : ℚ
deriving DecidableEq

/-- The running-extents update used by the match highlighter when a
further segment is appended: the combined width spans from the leftmost
pixel of the accumulated run (its x_bearing) through the accumulated
logical end (its x_advance) to the rightmost pixel of the new segment,
and the x_advance accumulates; all other fields keep the accumulated
run's values. -/
def extents_append (acc seg : text_extents) : text_extents :=
  { acc with
    width := acc.x_advance - acc.x_bearing + seg.x_bearing + seg.width
    x_advance := acc.x_advance + seg.x_advance }

/-- Combined-extents bookkeeping of the match highlighter (`harfbuzz.c`
lines 517-569): start from the prematch segment's extents; if a match
segment exists, replace them wholesale when the prematch is empty, else
append; if a postmatch segment exists, append it the same way. -/
def highlight_extents (prematch_ext : text_extents) (prematch_len : ℕ)
    (match_ext postmatch_ext : Option text_extents) : text_extents :=
  let e1 := prematch_ext
  let e2 := match match_ext with
    | none => e1
    | some m => if prematch_len = 0 then m else extents_append e1 m
  match postmatch_ext with
  | none => e2
  | some p => extents_append e2 p

/-- Concrete auto-fit vertical scene: clip height 60 holds four full rows
of height 10 with spacing 2 (`4 * 12 + 10 = 58 <= 60`) and the fifth
row's origin (60) still inside, so only the per-row font-height check
can reject the fifth row; that row (index 4) is the selection and
highlighting is enabled. -/
def highlighted_fifth_env : loop_env :=
  { num_results := 0, results_count := 6, first_result := 0, selection := 4,
    highlight_alpha := 1, horizontal := false, clip_x := 0, clip_y := 0,
    clip_width := 100, clip_height := 60, font_height := 10, result_spacing := 2 }

/-- Concrete auto-fit vertical scene fitting exactly four rows: clip
height 58 equals four rows of height 10 plus spacing 2 and one trailing
font height (`4 * 12 + 10`), with five results available and
highlighting disabled. -/
def fits_four_env : loop_env :=
  { num_results := 0, results_count := 5, first_result := 0, selection := 0,
    highlight_alpha := 0, horizontal := false, clip_x := 0, clip_y := 0,
    clip_width := 100, clip_height := 58, font_height := 10, result_spacing := 2 }

/-- Concrete fixed-count scene: configured count 3, five results, and a
deliberately tiny 1-unit clip rectangle. -/
def fixed_three_env : loop_env :=
  { num_results := 3, results_count := 5, first_result := 0, selection := 0,
    highlight_alpha := 0, horizontal := false, clip_x := 0, clip_y := 0,
    clip_width := 1, clip_height := 1, font_height := 10, result_spacing := 2 }

/-- C2: the overflow test keeps a row whose far edge coordinate (origin
after translation plus candidate extent) equals the clip boundary
`clip_origin + clip_size` on the relevant axis (x when horizontal, y
otherwise), and rejects it when it passes the boundary by any positive
amount. -/
theorem c2_size_overflows_boundary (o : overflow_env) (w h δ : ℚ) :
    (o.horizontal = true → o.x0 + w = o.clip_x + o.clip_width →
      size_overflows o w h = false) ∧
    (o.horizontal = true → 0 < δ → o.x0 + w = o.clip_x + o.clip_width + δ →
      size_overflows o w h = true) ∧
    (o.horizontal = false → o.y0 + h = o.clip_y + o.clip_height →
      size_overflows o w h = false) ∧
    (o.horizontal = false → 0 < δ → o.y0 + h = o.clip_y + o.clip_height + δ →
      size_overflows o w h = true) := by
  refine ⟨fun hh heq => ?_, fun hh hd heq => ?_, fun hh heq => ?_, fun hh hd heq => ?_⟩ <;>
    simp only [size_overflows, hh, if_true, if_false, Bool.false_eq_true,
      decide_eq_false_iff_not, decide_eq_true_eq, not_lt, gt_iff_lt] <;>
    linarith

/-- Concrete check of the C2 boundary behaviour on both axes. -/
theorem c2_size_overflows_boundary_witness :
    size_overflows ⟨true, 2, 0, 1, 0, 4, 0⟩ 3 0 = false ∧
    size_overflows ⟨true, 2, 0, 1, 0, 4, 0⟩ 4 0 = true ∧
    size_overflows ⟨false, 0, 3, 0, 2, 0, 4⟩ 0 3 = false ∧
    size_overflows ⟨false, 0, 3, 0, 2, 0, 4⟩ 0 4 = true :=
  ⟨(c2_size_overflows_boundary ⟨true, 2, 0, 1, 0, 4, 0⟩ 3 0 1).1 rfl (by norm_num),
   (c2_size_overflows_boundary ⟨true, 2, 0, 1, 0, 4, 0⟩ 4 0 1).2.1 rfl (by norm_num)
     (by norm_num),
   (c2_size_overflows_boundary ⟨false, 0, 3, 0, 2, 0, 4⟩ 0 3 1).2.2.1 rfl (by norm_num),
   (c2_size_overflows_boundary ⟨false, 0, 3, 0, 2, 0, 4⟩ 0 4 1).2.2.2 rfl (by norm_num)
     (by norm_num)⟩

/-- C7: a drawn result row at the selected on-screen position uses the
selection theme; any other row is themed by the parity of its absolute
index `i + first_result`, odd picking the alternate theme and even the
default theme, so the default/alternate theme of a given result does not
change when `first_result` (the scroll position) changes. -/
theorem c7_result_row_theme (i selection first_result : ℕ) :
    (i = selection → pick_result_theme i selection first_result = .selection_theme) ∧
    (i ≠ selection → (i + first_result) % 2 = 1 →
      pick_result_theme i selection first_result = .alternate_result_theme) ∧
    (i ≠ selection → (i + first_result) % 2 = 0 →
      pick_result_theme i selection first_result = .default_result_theme) ∧
    (∀ i2 sel2 first2, i ≠ selection → i2 ≠ sel2 → i + first_result = i2 + first2 →
      pick_result_theme i selection first_result = pick_result_theme i2 sel2 first2) := by
  refine ⟨fun h => ?_, fun h hm => ?_, fun h hm => ?_, fun i2 sel2 first2 h h2 heq => ?_⟩
  · simp [pick_result_theme, h]
  · simp only [pick_result_theme]
    rw [if_neg h, if_pos (by omega)]
  · simp only [pick_result_theme]
    rw [if_neg h, if_neg (by omega)]
  · simp only [pick_result_theme]
    rw [if_neg h, if_neg h2, heq]

/-- Concrete check of C7: selected row, odd and even absolute indices,
and scroll invariance of the absolute index 3 seen at two different
scroll offsets. -/
theorem c7_result_row_theme_witness :
    pick_result_theme 3 3 0 = .selection_theme ∧
    pick_result_theme 1 0 2 = .alternate_result_theme ∧
    pick_result_theme 1 0 3 = .default_result_theme ∧
    pick_result_theme 1 5 2 = pick_result_theme 2 5 1 :=
  ⟨(c7_result_row_theme 3 3 0).1 rfl,
   (c7_result_row_theme 1 0 2).2.1 (by decide) (by decide),
   (c7_result_row_theme 1 0 3).2.2.1 (by decide) (by decide),
   (c7_result_row_theme 1 5 2).2.2.2 2 5 1 (by decide) (by decide) (by decide)⟩

/-- C5: the match highlighter's combined extents equal the prematch (full
string) extents when there is no match segment; equal the match
segment's own extents when the prematch is empty; and otherwise combine
as width = prematch.x_advance - prematch.x_bearing + match.x_bearing +
match.width with x_advance the sum of x_advances, the same rule being
reapplied for a non-empty postmatch segment with the running extents as
the accumulated side. -/
theorem c5_highlight_combined_extents (pre m post : text_extents) (len : ℕ) :
    (highlight_extents pre len none none = pre) ∧
    (highlight_extents pre 0 (some m) none = m) ∧
    (len ≠ 0 →
      (highlight_extents pre len (some m) none).width =
        pre.x_advance - pre.x_bearing + m.x_bearing + m.width ∧
      (highlight_extents pre len (some m) none).x_advance =
        pre.x_advance + m.x_advance) ∧
    (len ≠ 0 →
      highlight_extents pre len (some m) (some post) =
        extents_append (extents_append pre m) post) := by
  refine ⟨rfl, rfl, fun h => ?_, fun h => ?_⟩ <;>
    simp [highlight_extents, extents_append, h]

/-- Concrete check of C5 on a non-empty prematch with a postmatch
segment. -/
theorem c5_highlight_combined_extents_witness :
    highlight_extents ⟨1, 2, 3, 4, 5⟩ 1 (some ⟨6, 7, 8, 9, 10⟩)
        (some ⟨11, 12, 13, 14, 15⟩) =
      extents_append (extents_append ⟨1, 2, 3, 4, 5⟩ ⟨6, 7, 8, 9, 10⟩)
        ⟨11, 12, 13, 14, 15⟩ :=
  (c5_highlight_combined_extents ⟨1, 2, 3, 4, 5⟩ ⟨6, 7, 8, 9, 10⟩
    ⟨11, 12, 13, 14, 15⟩ 1).2.2.2 (by decide)

/-- C8: with input masking requested and a non-empty input, the rendered
string is the masking glyph's bytes repeated once per input character
with no separator, its length is the character count times the glyph's
byte length, and the underlying buffer is NUL-terminated after those
bytes. -/
theorem c8_masked_input (input_utf8 placeholder_text glyph : List Char) (nchars : ℕ)
    (hne : input_utf8.length ≠ 0) :
    rendered_input_text input_utf8 placeholder_text glyph nchars true =
      write_glyphs glyph nchars ∧
    write_glyphs glyph nchars = (List.replicate nchars glyph).flatten ∧
    (write_glyphs glyph nchars).length = nchars * glyph.length ∧
    masked_input_buf glyph nchars = write_glyphs glyph nchars ++ [Char.ofNat 0] := by
  refine ⟨by simp [rendered_input_text, hne], ?_, ?_, rfl⟩
  · induction nchars with
    | zero => rfl
    | succ n ih => simp [write_glyphs, List.replicate_succ, ih]
  · induction nchars with
    | zero => simp [write_glyphs]
    | succ n ih =>
      simp only [write_glyphs, List.length_append, ih]
      ring

/-- Concrete check of C8: two masked characters with a one-byte glyph. -/
theorem c8_masked_input_witness :
    rendered_input_text ['a'] [] ['*'] 2 true = write_glyphs ['*'] 2 ∧
    write_glyphs ['*'] 2 = (List.replicate 2 ['*']).flatten ∧
    (write_glyphs ['*'] 2).length = 2 * (['*'] : List Char).length ∧
    masked_input_buf ['*'] 2 = write_glyphs ['*'] 2 ++ [Char.ofNat 0] :=
  c8_masked_input ['a'] [] ['*'] 2 (by decide)

/-- Claimed by C1 but false: a failed `FT_Set_Char_Size` call does not
terminate init.  With a zero library-init code, a zero font-open code
and a nonzero size-setting code, the outcome is a non-fatal
continuation (the error is only logged). -/
theorem c1_counterexample :
    (1 : ℤ) ≠ 0 ∧
    ft_init_fatal (entry_backend_harfbuzz_init_font [] 0 0 1) = false := by
  refine ⟨by decide, ?_⟩
  simp [entry_backend_harfbuzz_init_font, ft_init_fatal]

/-- C1 (amended): a failed FreeType library initialisation or a failed
font open logs a backend error string and terminates the process; a
failed size-setting call logs the backend error string but init
continues. -/
theorem c1_init_font_error_handling (table : List (ℤ × String)) (e1 e2 e3 : ℤ) :
    (e1 ≠ 0 → entry_backend_harfbuzz_init_font table e1 e2 e3 =
      .fatal ("Error initialising FreeType: " ++ get_ft_error_string table e1)) ∧
    (e1 = 0 → e2 ≠ 0 → entry_backend_harfbuzz_init_font table e1 e2 e3 =
      .fatal ("Error loading font: " ++ get_ft_error_string table e2)) ∧
    (e1 = 0 → e2 = 0 → e3 ≠ 0 →
      entry_backend_harfbuzz_init_font table e1 e2 e3 =
        .ok ["Error setting font size: " ++ get_ft_error_string table e3] ∧
      ft_init_fatal (entry_backend_harfbuzz_init_font table e1 e2 e3) = false) := by
  refine ⟨fun h1 => ?_, fun h1 h2 => ?_, fun h1 h2 h3 => ?_⟩ <;>
    simp [entry_backend_harfbuzz_init_font, ft_init_fatal, *]

/-- Concrete check of C1 (amended) on all three error sites. -/
theorem c1_init_font_error_handling_witness :
    entry_backend_harfbuzz_init_font [] 5 0 0 =
      .fatal ("Error initialising FreeType: " ++ get_ft_error_string [] 5) ∧
    entry_backend_harfbuzz_init_font [] 0 7 0 =
      .fatal ("Error loading font: " ++ get_ft_error_string [] 7) ∧
    (entry_backend_harfbuzz_init_font [] 0 0 9 =
      .ok ["Error setting font size: " ++ get_ft_error_string [] 9] ∧
     ft_init_fatal (entry_backend_harfbuzz_init_font [] 0 0 9) = false) :=
  ⟨(c1_init_font_error_handling [] 5 0 0).1 (by decide),
   (c1_init_font_error_handling [] 0 7 0).2.1 rfl (by decide),
   (c1_init_font_error_handling [] 0 0 9).2.2 rfl rfl (by decide)⟩

/-- Invariants of the bounded token-parsing loop, for every starting
element count `n`: write indices lie in `[n, cap)`, at most `cap - n`
writes happen, tokens are dropped only once the count reaches the
capacity, and every token is exactly one of written, error-logged, or
dropped. -/
theorem parse_token_loop_spec (valid : String → Bool) (cap : ℕ) :
    ∀ (toks : List String) (n : ℕ),
      (∀ p ∈ (parse_token_loop valid cap toks n).1, n ≤ p.1 ∧ p.1 < cap) ∧
      (parse_token_loop valid cap toks n).1.length ≤ cap - n ∧
      ((parse_token_loop valid cap toks n).2.2 ≠ [] →
        cap ≤ n + (parse_token_loop valid cap toks n).1.length) ∧
      (parse_token_loop valid cap toks n).1.length +
        (parse_token_loop valid cap toks n).2.1.length +
        (parse_token_loop valid cap toks n).2.2.length = toks.length := by
  intro toks
  induction toks with
  | nil =>
    intro n
    simp [parse_token_loop]
  | cons tok rest ih =>
    intro n
    by_cases hlt : n < cap
    · by_cases hv : valid tok = true
      · have h := ih (n + 1)
        simp only [parse_token_loop, if_pos hlt, if_pos hv, List.mem_cons,
          List.length_cons, ne_eq]
        refine ⟨?_, by omega, by have := h.2.2.1; intro hd; have := this hd; omega,
          by have := h.2.2.2; omega⟩
        rintro p (rfl | hp)
        · exact ⟨le_refl n, hlt⟩
        · have := h.1 p hp
          omega
      · have h := ih n
        simp only [parse_token_loop, if_pos hlt, if_neg hv, List.length_cons, ne_eq]
        refine ⟨h.1, h.2.1, h.2.2.1, by have := h.2.2.2; omega⟩
    · simp only [parse_token_loop, if_neg hlt, List.length_nil, List.length_cons,
        List.not_mem_nil, false_implies, implies_true, ne_eq, true_and]
      refine ⟨by omega, fun _ => by omega, by omega⟩

/-- C10: during init, the comma-token loops for font variations and font
features write each accepted token at an index strictly below the
fixed array capacity, accept at most capacity-many tokens, drop the
remaining tokens only once the arrays are full, and dropped tokens
produce no error log (each token is written, error-logged, or dropped,
exclusively). -/
theorem c10_token_list_capacity (valid : String → Bool) (cap : ℕ)
    (toks : List String) :
    (∀ p ∈ (parse_token_loop valid cap toks 0).1, p.1 < cap) ∧
    (parse_token_loop valid cap toks 0).1.length ≤ cap ∧
    ((parse_token_loop valid cap toks 0).2.2 ≠ [] →
      (parse_token_loop valid cap toks 0).1.length = cap) ∧
    (parse_token_loop valid cap toks 0).1.length +
      (parse_token_loop valid cap toks 0).2.1.length +
      (parse_token_loop valid cap toks 0).2.2.length = toks.length := by
  have h := parse_token_loop_spec valid cap toks 0
  exact ⟨fun p hp => (h.1 p hp).2, by omega, fun hd => by have := h.2.2.1 hd; omega,
    h.2.2.2⟩

/-- Concrete check of C10: capacity 2 with three well-formed tokens
accepts the first two at indices 0 and 1 and drops the third. -/
theorem c10_token_list_capacity_witness :
    1 < 2 ∧ (parse_token_loop (fun _ => true) 2 ["a", "b", "c"] 0).1.length = 2 :=
  ⟨(c10_token_list_capacity (fun _ => true) 2 ["a", "b", "c"]).1 (1, "b")
      (by simp [parse_token_loop]),
   (c10_token_list_capacity (fun _ => true) 2 ["a", "b", "c"]).2.2.1
      (by simp [parse_token_loop])⟩

/-- Fixed-count mode runs the loop to its iteration bound: with a nonzero
configured count and scroll offset 0, no break condition ever fires, so
the loop index advances one row per iteration regardless of clip
rectangle, orientation and measured advances. -/
theorem loop_go_fixed (e : loop_env) (adv : ℕ → ℚ) (hcfg : e.num_results ≠ 0)
    (hfirst : e.first_result = 0) :
    ∀ (fuel i : ℕ) (x y la : ℚ), i + fuel ≤ min e.num_results e.results_count →
      loop_go e adv fuel i x y la = i + fuel := by
  intro fuel
  induction fuel with
  | zero => intro i x y la h; simp [loop_go]
  | succ f ih =>
    intro i x y la h
    simp only [loop_go]
    rw [if_neg (fun hc => hcfg hc.1),
      if_neg (by omega : ¬(e.num_results ≠ 0 ∧ e.num_results ≤ i)),
      if_neg (by omega : ¬(e.results_count ≤ i + e.first_result))]
    by_cases hsel : i ≠ e.selection ∨ e.highlight_alpha = 0
    · rw [if_pos hsel, if_pos hcfg, ih (i + 1) _ _ _ (by omega)]
      omega
    · rw [if_neg hsel, ih (i + 1) _ _ _ (by omega)]
      omega

/-- One unfolded iteration of the result loop in vertical auto-fit mode:
advance the origin by font height plus spacing, break on the origin
pre-check, the last-page check, or - outside the highlighted-selection
branch - the per-row font-height check, else draw and continue. -/
theorem loop_go_vert_step (e : loop_env) (adv : ℕ → ℚ)
    (hcfg : e.num_results = 0) (hh : e.horizontal = false) (f i : ℕ) (x y la : ℚ) :
    loop_go e adv (f + 1) i x y la =
      if e.clip_y + e.clip_height < y + e.font_height + e.result_spacing then i
      else if e.results_count ≤ i + e.first_result then i
      else if i ≠ e.selection ∨ e.highlight_alpha = 0 then
        if e.clip_y + e.clip_height < y + e.font_height + e.result_spacing + e.font_height
        then i
        else loop_go e adv f (i + 1) x (y + e.font_height + e.result_spacing) (adv i)
      else loop_go e adv f (i + 1) x (y + e.font_height + e.result_spacing) (adv i) := by
  simp only [loop_go, loop_clip, size_overflows, hh, hcfg]
  norm_num

/-- Invariants of the vertical auto-fit loop, for every starting index
`i` whose origin is `i` row-steps below `y0`: the returned count is
between `i` and `i + fuel`; every drawn row is on the current page and -
unless it is the highlighted selected row - passed the font-height
overflow check; and an early stop happens only at a row that ran off the
page or failed to fit. -/
theorem loop_go_vertical_autofit (e : loop_env) (adv : ℕ → ℚ) (y0 : ℚ)
    (hcfg : e.num_results = 0) (hh : e.horizontal = false) (hfh : 0 ≤ e.font_height) :
    ∀ (fuel i : ℕ) (x la y : ℚ),
      y = y0 + (i : ℚ) * (e.font_height + e.result_spacing) →
      i ≤ loop_go e adv fuel i x y la ∧
      loop_go e adv fuel i x y la ≤ i + fuel ∧
      (∀ j, i ≤ j → j < loop_go e adv fuel i x y la →
        j + e.first_result < e.results_count ∧
        ((j ≠ e.selection ∨ e.highlight_alpha = 0) → row_fits e y0 j)) ∧
      (loop_go e adv fuel i x y la < i + fuel →
        e.results_count ≤ loop_go e adv fuel i x y la + e.first_result ∨
        ¬ row_fits e y0 (loop_go e adv fuel i x y la)) := by
  intro fuel
  induction fuel with
  | zero =>
    intro i x la y hy
    refine ⟨le_refl _, by simp [loop_go], ?_, ?_⟩
    · intro j hj hlt
      simp only [loop_go] at hlt
      omega
    · intro hlt
      simp only [loop_go] at hlt
      omega
  | succ f ih =>
    intro i x la y hy
    rw [loop_go_vert_step e adv hcfg hh]
    have hy1 : y + e.font_height + e.result_spacing =
        y0 + ((i : ℚ) + 1) * (e.font_height + e.result_spacing) := by
      rw [hy]; ring
    have hfits : ∀ j : ℕ, (j : ℚ) = (i : ℚ) →
        (y + e.font_height + e.result_spacing + e.font_height ≤
          e.clip_y + e.clip_height ↔ row_fits e y0 j) := by
      intro j hj
      rw [row_fits, hj, hy]
      constructor <;> intro h <;> nlinarith [h]
    by_cases h1 : e.clip_y + e.clip_height < y + e.font_height + e.result_spacing
    · rw [if_pos h1]
      refine ⟨le_refl _, by omega, fun j hj hlt => by omega, fun _ => ?_⟩
      right
      rw [row_fits]
      push_neg
      have : y0 + ((i : ℚ) + 1) * (e.font_height + e.result_spacing) =
          y + e.font_height + e.result_spacing := hy1.symm
      nlinarith [this, h1, hfh]
    · rw [if_neg h1]
      by_cases h2 : e.results_count ≤ i + e.first_result
      · rw [if_pos h2]
        exact ⟨le_refl _, by omega, fun j hj hlt => by omega, fun _ => Or.inl h2⟩
      · rw [if_neg h2]
        by_cases h3 : i ≠ e.selection ∨ e.highlight_alpha = 0
        · rw [if_pos h3]
          by_cases h4 : e.clip_y + e.clip_height <
              y + e.font_height + e.result_spacing + e.font_height
          · rw [if_pos h4]
            refine ⟨le_refl _, by omega, fun j hj hlt => by omega, fun _ => ?_⟩
            right
            intro hf
            have := (hfits i rfl).2 hf
            linarith
          · rw [if_neg h4]
            obtain ⟨ha, hb, hc, hd⟩ := ih (i + 1) x (adv i)
              (y + e.font_height + e.result_spacing) (by push_cast [hy1]; ring)
            refine ⟨by omega, by omega, ?_, by intro h; rcases hd (by omega) with h5 | h5
                                               · exact Or.inl h5
                                               · exact Or.inr h5⟩
            intro j hj hlt
            rcases Nat.eq_or_lt_of_le hj with heq | hj2
            · subst heq
              exact ⟨by omega, fun _ => (hfits i rfl).1 (by linarith)⟩
            · exact hc j (by omega) hlt
        · rw [if_neg h3]
          obtain ⟨ha, hb, hc, hd⟩ := ih (i + 1) x (adv i)
            (y + e.font_height + e.result_spacing) (by push_cast [hy1]; ring)
          refine ⟨by omega, by omega, ?_, by intro h; exact hd (by omega)⟩
          intro j hj hlt
          rcases Nat.eq_or_lt_of_le hj with heq | hj2
          · subst heq
            refine ⟨by omega, fun hcon => ?_⟩
            rcases hcon with hne | hal
            · exact absurd (Or.inl hne) h3
            · exact absurd (Or.inr hal) h3
          · exact hc j (by omega) hlt

/-- C4: in fixed-count mode with the first displayed result index 0, the
result loop draws exactly `min(configured_count, results.count)` rows -
no overflow check is consulted, so the count is independent of the clip
rectangle and of the measured row advances; in particular configured
count 3 with 5 results draws exactly 3 rows inside a 1-unit clip. -/
theorem c4_fixed_count_draws_min :
    (∀ (e : loop_env) (adv : ℕ → ℚ) (x0 y0 la0 : ℚ), e.num_results ≠ 0 →
      e.first_result = 0 →
      num_results_drawn e adv x0 y0 la0 = min e.num_results e.results_count) ∧
    num_results_drawn fixed_three_env (fun _ => 0) 0 0 0 = 3 := by
  have main : ∀ (e : loop_env) (adv : ℕ → ℚ) (x0 y0 la0 : ℚ), e.num_results ≠ 0 →
      e.first_result = 0 →
      num_results_drawn e adv x0 y0 la0 = min e.num_results e.results_count := by
    intro e adv x0 y0 la0 hc hf
    unfold num_results_drawn loop_num_results
    rw [if_neg hc]
    have := loop_go_fixed e adv hc hf (min e.num_results e.results_count) 0 x0 y0 la0
      (by omega)
    omega
  refine ⟨main, ?_⟩
  have := main fixed_three_env (fun _ => 0) 0 0 0 (by simp [fixed_three_env])
    (by simp [fixed_three_env])
  simpa [fixed_three_env] using this

/-- Concrete check of C4 at configured count 3 with 5 results. -/
theorem c4_fixed_count_draws_min_witness :
    num_results_drawn fixed_three_env (fun _ => 0) 0 0 0 =
      min fixed_three_env.num_results fixed_three_env.results_count :=
  c4_fixed_count_draws_min.1 fixed_three_env (fun _ => 0) 0 0 0
    (by simp [fixed_three_env]) (by simp [fixed_three_env])

/-- Claimed by C3 but false: with match highlighting enabled and the
selection on the first overflowing row, that row is drawn without the
font-height overflow test.  In `highlighted_fifth_env` row 4 does not
fit (its far edge 70 passes the clip boundary 60), yet the loop draws
it and stops only at row 5, recording 5 rows drawn where the claim
demands a stop at 4. -/
theorem c3_counterexample :
    num_results_drawn highlighted_fifth_env (fun _ => 0) 0 0 0 = 5 ∧
    ¬ row_fits highlighted_fifth_env 0 4 := by
  constructor
  · norm_num [num_results_drawn, loop_num_results, highlighted_fifth_env, loop_go,
      loop_clip, size_overflows]
  · norm_num [row_fits, highlighted_fifth_env]

/-- C3 (amended): in auto-fit vertical mode every candidate row except
the match-highlighted selected row is tested against the clip rectangle
using the constant font height before being drawn; the loop stops at
the first candidate that ran off the page or failed the test, without
drawing it, and the recorded count is the number of rows drawn so far;
a clip height holding exactly 4 rows of font height 10 plus spacing 2
yields exactly 4 rows drawn. -/
theorem c3_autofit_vertical_prechecked :
    (∀ (e : loop_env) (adv : ℕ → ℚ) (x0 y0 la0 : ℚ),
      e.num_results = 0 → e.horizontal = false → 0 ≤ e.font_height →
      num_results_drawn e adv x0 y0 la0 ≤ e.results_count ∧
      (∀ j, j < num_results_drawn e adv x0 y0 la0 →
        j + e.first_result < e.results_count ∧
        ((j ≠ e.selection ∨ e.highlight_alpha = 0) → row_fits e y0 j)) ∧
      (num_results_drawn e adv x0 y0 la0 < e.results_count →
        e.results_count ≤ num_results_drawn e adv x0 y0 la0 + e.first_result ∨
        ¬ row_fits e y0 (num_results_drawn e adv x0 y0 la0))) ∧
    num_results_drawn fits_four_env (fun _ => 0) 0 0 0 = 4 := by
  constructor
  · intro e adv x0 y0 la0 hc hh hfh
    have h := loop_go_vertical_autofit e adv y0 hc hh hfh (loop_num_results e) 0 x0 la0
      y0 (by push_cast; ring)
    have hnum : loop_num_results e = e.results_count := by
      unfold loop_num_results; rw [if_pos hc]
    unfold num_results_drawn
    rw [hnum] at h ⊢
    exact ⟨by omega, fun j hj => h.2.2.1 j (by omega) hj, fun hlt => h.2.2.2 (by omega)⟩
  · norm_num [num_results_drawn, loop_num_results, fits_four_env, loop_go, loop_clip,
      size_overflows]

/-- Concrete check of C3 (amended) on the exactly-four-rows scene: the
count is within bounds and row 0, being drawn, passed the font-height
fit test. -/
theorem c3_autofit_vertical_prechecked_witness :
    num_results_drawn fits_four_env (fun _ => 0) 0 0 0 ≤ fits_four_env.results_count ∧
    (0 + fits_four_env.first_result < fits_four_env.results_count ∧
      ((0 ≠ fits_four_env.selection ∨ fits_four_env.highlight_alpha = 0) →
        row_fits fits_four_env 0 0)) := by
  have h := c3_autofit_vertical_prechecked.1 fits_four_env (fun _ => 0) 0 0 0 rfl rfl
    (by norm_num [fits_four_env])
  exact ⟨h.1, h.2.1 0 (by rw [c3_autofit_vertical_prechecked.2]; norm_num)⟩

/-- A hexadecimal digit has value below 16. -/
theorem hexVal_lt (c : Char) (h : isHexDigit c = true) : hexVal c < 16 := by
  simp only [isHexDigit, decide_eq_true_eq] at h
  unfold hexVal
  split_ifs <;> omega

/-- Hexadecimal digits are not whitespace. -/
theorem not_isSpace_of_hex (c : Char) (h : isHexDigit c = true) : isSpace c = false := by
  simp only [isHexDigit, decide_eq_true_eq] at h
  simp only [isSpace, decide_eq_false_iff_not]
  omega

/-- A hexadecimal digit differs from any non-hex character. -/
theorem hex_ne_char (c : Char) (h : isHexDigit c = true) (d : Char)
    (hd : isHexDigit d = false) : c ≠ d := by
  intro he
  rw [he, hd] at h
  cases h

/-- Bitwise or of a multiple of `2 ^ j` with `2 ^ j - 1` fills the
disjoint low bits, so it coincides with addition. -/
theorem lor_mul_two_pow_sub_one (j m : ℕ) :
    m * 2 ^ j ||| (2 ^ j - 1) = m * 2 ^ j + (2 ^ j - 1) := by
  induction j generalizing m with
  | zero => simp
  | succ k ih =>
    have h1 : m * 2 ^ (k + 1) = Nat.bit false (m * 2 ^ k) := by
      simp [Nat.bit, pow_succ]; ring
    have h2 : 2 ^ (k + 1) - 1 = Nat.bit true (2 ^ k - 1) := by
      have : (1 : ℕ) ≤ 2 ^ k := Nat.one_le_two_pow
      simp [Nat.bit, pow_succ]
      omega
    rw [h1, h2, Nat.lor_bit, ih]
    have : (1 : ℕ) ≤ 2 ^ k := Nat.one_le_two_pow
    simp [Nat.bit, pow_succ]
    omega

/-- On a value below `2 ^ 24` the pair `val <<= 8; val |= 0xFF` neither
wraps nor overlaps: it multiplies by 256 and adds 255. -/
theorem shl8_or_ff_eq (v : ℕ) (hv : v < 2 ^ 24) : shl8_or_ff v = v * 256 + 255 := by
  unfold shl8_or_ff
  rw [Nat.shiftLeft_eq, Nat.mod_eq_of_lt (by norm_num; omega)]
  have h := lor_mul_two_pow_sub_one 8 v
  norm_num at h
  convert h using 2

/-- Converting a nonnegative `long` below `2 ^ 32` to `uint32_t` keeps
its value. -/
theorem u32_of_long_coe (n : ℕ) (hlt : n < 2 ^ 32) : u32_of_long (n : ℤ) = n := by
  unfold u32_of_long
  omega

/-- On an all-hex-digit string, `strtol` base 16 skips nothing (no
whitespace, sign or `0x` marker is present) and consumes every digit. -/
theorem strtol16_all_hex (c : Char) (cs : List Char)
    (h : ∀ x ∈ c :: cs, isHexDigit x = true) :
    strtol16 (c :: cs) = (parseHexDigits (c :: cs) 0 : ℤ) := by
  have hc : isHexDigit c = true := h c (by simp)
  have hdrop : (c :: cs).dropWhile isSpace = c :: cs := by
    rw [List.dropWhile_cons, not_isSpace_of_hex c hc]
    simp
  unfold strtol16
  rw [hdrop]
  have hnm : ¬ (c = '-') := hex_ne_char c hc '-' (by decide)
  have hnp : ¬ (c = '+') := hex_ne_char c hc '+' (by decide)
  simp only [if_neg hnm, if_neg hnp]
  cases cs with
  | nil => simp [strtolHexNat]
  | cons c1 rest =>
    have hc1 : isHexDigit c1 = true := h c1 (by simp)
    have hx : ¬ (c1 = 'x') := hex_ne_char c1 hc1 'x' (by decide)
    have hX : ¬ (c1 = 'X') := hex_ne_char c1 hc1 'X' (by decide)
    simp [strtolHexNat, hx, hX]

/-- Evaluation of `hex_to_color` on three hex digits: each digit is
duplicated (value `17 * digit`) and the alpha channel is full. -/
theorem hex_to_color_hex3 (a b c : Char) (ha : isHexDigit a = true)
    (hb : isHexDigit b = true) (hc : isHexDigit c = true) :
    hex_to_color [a, b, c] =
      ⟨((17 * hexVal a : ℕ) : ℚ) / 255, ((17 * hexVal b : ℕ) : ℚ) / 255,
        ((17 * hexVal c : ℕ) : ℚ) / 255, 1⟩ := by
  have hA := hexVal_lt a ha
  have hB := hexVal_lt b hb
  have hC := hexVal_lt c hc
  have hne : ¬ (([a, b, c] : List Char).head? = some '#') := by
    simp only [List.head?_cons, Option.some.injEq]
    exact hex_ne_char a ha '#' (by decide)
  have hall : ∀ x ∈ [a, a, b, b, c, c], isHexDigit x = true := by
    intro x hx
    simp only [List.mem_cons, List.not_mem_nil, or_false] at hx
    rcases hx with rfl | rfl | rfl | rfl | rfl | rfl <;> assumption
  have hp : parseHexDigits [a, a, b, b, c, c] 0 =
      1114112 * hexVal a + 4352 * hexVal b + 17 * hexVal c := by
    simp [parseHexDigits, ha, hb, hc]
    ring
  have hs : strtol16 [a, a, b, b, c, c] = (parseHexDigits [a, a, b, b, c, c] 0 : ℤ) :=
    strtol16_all_hex a [a, b, b, c, c] hall
  rw [hex_to_color]
  rw [if_neg hne]
  simp only [List.length_cons, List.length_nil, List.getD_cons_zero, List.getD_cons_succ]
  norm_num
  rw [hs, hp]
  rw [u32_of_long_coe _ (by omega)]
  rw [shl8_or_ff_eq _ (by omega)]
  rw [color_of_u32]
  have h1 : ((1114112 * hexVal a + 4352 * hexVal b + 17 * hexVal c) * 256 + 255) /
      2 ^ 24 % 2 ^ 8 = 17 * hexVal a := by
    have : ((1114112 * hexVal a + 4352 * hexVal b + 17 * hexVal c) * 256 + 255) /
        2 ^ 24 = 17 * hexVal a := by omega
    rw [this]; omega
  have h2 : ((1114112 * hexVal a + 4352 * hexVal b + 17 * hexVal c) * 256 + 255) /
      2 ^ 16 % 2 ^ 8 = 17 * hexVal b := by
    have : ((1114112 * hexVal a + 4352 * hexVal b + 17 * hexVal c) * 256 + 255) /
        2 ^ 16 = 17 * 256 * hexVal a + 17 * hexVal b := by omega
    rw [this]; omega
  have h3 : ((1114112 * hexVal a + 4352 * hexVal b + 17 * hexVal c) * 256 + 255) /
      2 ^ 8 % 2 ^ 8 = 17 * hexVal c := by
    have : ((1114112 * hexVal a + 4352 * hexVal b + 17 * hexVal c) * 256 + 255) /
        2 ^ 8 = 17 * 65536 * hexVal a + 17 * 256 * hexVal b + 17 * hexVal c := by omega
    rw [this]; omega
  have h4 : ((1114112 * hexVal a + 4352 * hexVal b + 17 * hexVal c) * 256 + 255) %
      2 ^ 8 = 255 := by omega
  rw [h1, h2, h3, h4]
  norm_num

/-- Evaluation of `hex_to_color` on four hex digits: each digit is
duplicated into its channel, including alpha. -/
theorem hex_to_color_hex4 (a b c d : Char) (ha : isHexDigit a = true)
    (hb : isHexDigit b = true) (hc : isHexDigit c = true) (hd : isHexDigit d = true) :
    hex_to_color [a, b, c, d] =
      ⟨((17 * hexVal a : ℕ) : ℚ) / 255, ((17 * hexVal b : ℕ) : ℚ) / 255,
        ((17 * hexVal c : ℕ) : ℚ) / 255, ((17 * hexVal d : ℕ) : ℚ) / 255⟩ := by
  have hA := hexVal_lt a ha
  have hB := hexVal_lt b hb
  have hC := hexVal_lt c hc
  have hD := hexVal_lt d hd
  have hne : ¬ (([a, b, c, d] : List Char).head? = some '#') := by
    simp only [List.head?_cons, Option.some.injEq]
    exact hex_ne_char a ha '#' (by decide)
  have hall : ∀ x ∈ [a, a, b, b, c, c, d, d], isHexDigit x = true := by
    intro x hx
    simp only [List.mem_cons, List.not_mem_nil, or_false] at hx
    rcases hx with rfl | rfl | rfl | rfl | rfl | rfl | rfl | rfl <;> assumption
  have hp : parseHexDigits [a, a, b, b, c, c, d, d] 0 =
      285212672 * hexVal a + 1114112 * hexVal b + 4352 * hexVal c + 17 * hexVal d := by
    simp [parseHexDigits, ha, hb, hc, hd]
    ring
  have hs : strtol16 [a, a, b, b, c, c, d, d] =
      (parseHexDigits [a, a, b, b, c, c, d, d] 0 : ℤ) :=
    strtol16_all_hex a [a, b, b, c, c, d, d] hall
  rw [hex_to_color]
  rw [if_neg hne]
  simp only [List.length_cons, List.length_nil, List.getD_cons_zero, List.getD_cons_succ]
  norm_num
  rw [hs, hp]
  rw [u32_of_long_coe _ (by omega)]
  rw [color_of_u32]
  have h1 : (285212672 * hexVal a + 1114112 * hexVal b + 4352 * hexVal c + 17 * hexVal d) /
      2 ^ 24 % 2 ^ 8 = 17 * hexVal a := by
    have : (285212672 * hexVal a + 1114112 * hexVal b + 4352 * hexVal c + 17 * hexVal d) /
        2 ^ 24 = 17 * hexVal a := by omega
    rw [this]; omega
  have h2 : (285212672 * hexVal a + 1114112 * hexVal b + 4352 * hexVal c + 17 * hexVal d) /
      2 ^ 16 % 2 ^ 8 = 17 * hexVal b := by
    have : (285212672 * hexVal a + 1114112 * hexVal b + 4352 * hexVal c + 17 * hexVal d) /
        2 ^ 16 = 17 * 256 * hexVal a + 17 * hexVal b := by omega
    rw [this]; omega
  have h3 : (285212672 * hexVal a + 1114112 * hexVal b + 4352 * hexVal c + 17 * hexVal d) /
      2 ^ 8 % 2 ^ 8 = 17 * hexVal c := by
    have : (285212672 * hexVal a + 1114112 * hexVal b + 4352 * hexVal c + 17 * hexVal d) /
        2 ^ 8 = 17 * 65536 * hexVal a + 17 * 256 * hexVal b + 17 * hexVal c := by omega
    rw [this]; omega
  have h4 : (285212672 * hexVal a + 1114112 * hexVal b + 4352 * hexVal c + 17 * hexVal d) %
      2 ^ 8 = 17 * hexVal d := by omega
  rw [h1, h2, h3, h4]
  congr 1 <;> push_cast <;> ring

/-- Evaluation of `hex_to_color` on six hex digits: RRGGBB channels with
full alpha. -/
theorem hex_to_color_hex6 (a b c d e f : Char) (ha : isHexDigit a = true)
    (hb : isHexDigit b = true) (hc : isHexDigit c = true) (hd : isHexDigit d = true)
    (he : isHexDigit e = true) (hf : isHexDigit f = true) :
    hex_to_color [a, b, c, d, e, f] =
      ⟨((16 * hexVal a + hexVal b : ℕ) : ℚ) / 255,
        ((16 * hexVal c + hexVal d : ℕ) : ℚ) / 255,
        ((16 * hexVal e + hexVal f : ℕ) : ℚ) / 255, 1⟩ := by
  have hA := hexVal_lt a ha
  have hB := hexVal_lt b hb
  have hC := hexVal_lt c hc
  have hD := hexVal_lt d hd
  have hE := hexVal_lt e he
  have hF := hexVal_lt f hf
  have hne : ¬ (([a, b, c, d, e, f] : List Char).head? = some '#') := by
    simp only [List.head?_cons, Option.some.injEq]
    exact hex_ne_char a ha '#' (by decide)
  have hall : ∀ x ∈ [a, b, c, d, e, f], isHexDigit x = true := by
    intro x hx
    simp only [List.mem_cons, List.not_mem_nil, or_false] at hx
    rcases hx with rfl | rfl | rfl | rfl | rfl | rfl <;> assumption
  have hp : parseHexDigits [a, b, c, d, e, f] 0 =
      1048576 * hexVal a + 65536 * hexVal b + 4096 * hexVal c + 256 * hexVal d +
        16 * hexVal e + hexVal f := by
    simp [parseHexDigits, ha, hb, hc, hd, he, hf]
    ring
  have hs : strtol16 [a, b, c, d, e, f] = (parseHexDigits [a, b, c, d, e, f] 0 : ℤ) :=
    strtol16_all_hex a [b, c, d, e, f] hall
  rw [hex_to_color]
  rw [if_neg hne]
  simp only [List.length_cons, List.length_nil]
  norm_num
  rw [hs, hp]
  rw [u32_of_long_coe _ (by omega)]
  rw [shl8_or_ff_eq _ (by omega)]
  rw [color_of_u32]
  have h1 : ((1048576 * hexVal a + 65536 * hexVal b + 4096 * hexVal c + 256 * hexVal d +
      16 * hexVal e + hexVal f) * 256 + 255) / 2 ^ 24 % 2 ^ 8 =
      16 * hexVal a + hexVal b := by
    have : ((1048576 * hexVal a + 65536 * hexVal b + 4096 * hexVal c + 256 * hexVal d +
        16 * hexVal e + hexVal f) * 256 + 255) / 2 ^ 24 = 16 * hexVal a + hexVal b := by
      omega
    rw [this]; omega
  have h2 : ((1048576 * hexVal a + 65536 * hexVal b + 4096 * hexVal c + 256 * hexVal d +
      16 * hexVal e + hexVal f) * 256 + 255) / 2 ^ 16 % 2 ^ 8 =
      16 * hexVal c + hexVal d := by
    have : ((1048576 * hexVal a + 65536 * hexVal b + 4096 * hexVal c + 256 * hexVal d +
        16 * hexVal e + hexVal f) * 256 + 255) / 2 ^ 16 =
        4096 * hexVal a + 256 * hexVal b + 16 * hexVal c + hexVal d := by omega
    rw [this]; omega
  have h3 : ((1048576 * hexVal a + 65536 * hexVal b + 4096 * hexVal c + 256 * hexVal d +
      16 * hexVal e + hexVal f) * 256 + 255) / 2 ^ 8 % 2 ^ 8 =
      16 * hexVal e + hexVal f := by
    have : ((1048576 * hexVal a + 65536 * hexVal b + 4096 * hexVal c + 256 * hexVal d +
        16 * hexVal e + hexVal f) * 256 + 255) / 2 ^ 8 =
        1048576 * hexVal a + 65536 * hexVal b + 4096 * hexVal c + 256 * hexVal d +
          16 * hexVal e + hexVal f := by omega
    rw [this]; omega
  have h4 : ((1048576 * hexVal a + 65536 * hexVal b + 4096 * hexVal c + 256 * hexVal d +
      16 * hexVal e + hexVal f) * 256 + 255) % 2 ^ 8 = 255 := by omega
  rw [h1, h2, h3, h4]
  norm_num

/-- Evaluation of `hex_to_color` on eight hex digits: RRGGBBAA
channels. -/
theorem hex_to_color_hex8 (a b c d e f g h : Char) (ha : isHexDigit a = true)
    (hb : isHexDigit b = true) (hc : isHexDigit c = true) (hd : isHexDigit d = true)
    (he : isHexDigit e = true) (hf : isHexDigit f = true) (hg : isHexDigit g = true)
    (hh : isHexDigit h = true) :
    hex_to_color [a, b, c, d, e, f, g, h] =
      ⟨((16 * hexVal a + hexVal b : ℕ) : ℚ) / 255,
        ((16 * hexVal c + hexVal d : ℕ) : ℚ) / 255,
        ((16 * hexVal e + hexVal f : ℕ) : ℚ) / 255,
        ((16 * hexVal g + hexVal h : ℕ) : ℚ) / 255⟩ := by
  have hA := hexVal_lt a ha
  have hB := hexVal_lt b hb
  have hC := hexVal_lt c hc
  have hD := hexVal_lt d hd
  have hE := hexVal_lt e he
  have hF := hexVal_lt f hf
  have hG := hexVal_lt g hg
  have hH := hexVal_lt h hh
  have hne : ¬ (([a, b, c, d, e, f, g, h] : List Char).head? = some '#') := by
    simp only [List.head?_cons, Option.some.injEq]
    exact hex_ne_char a ha '#' (by decide)
  have hall : ∀ x ∈ [a, b, c, d, e, f, g, h], isHexDigit x = true := by
    intro x hx
    simp only [List.mem_cons, List.not_mem_nil, or_false] at hx
    rcases hx with rfl | rfl | rfl | rfl | rfl | rfl | rfl | rfl <;> assumption
  have hp : parseHexDigits [a, b, c, d, e, f, g, h] 0 =
      268435456 * hexVal a + 16777216 * hexVal b + 1048576 * hexVal c +
        65536 * hexVal d + 4096 * hexVal e + 256 * hexVal f + 16 * hexVal g +
        hexVal h := by
    simp [parseHexDigits, ha, hb, hc, hd, he, hf, hg, hh]
    ring
  have hs : strtol16 [a, b, c, d, e, f, g, h] =
      (parseHexDigits [a, b, c, d, e, f, g, h] 0 : ℤ) :=
    strtol16_all_hex a [b, c, d, e, f, g, h] hall
  rw [hex_to_color]
  rw [if_neg hne]
  simp only [List.length_cons, List.length_nil]
  norm_num
  rw [hs, hp]
  rw [u32_of_long_coe _ (by omega)]
  rw [color_of_u32]
  have h1 : (268435456 * hexVal a + 16777216 * hexVal b + 1048576 * hexVal c +
      65536 * hexVal d + 4096 * hexVal e + 256 * hexVal f + 16 * hexVal g + hexVal h) /
      2 ^ 24 % 2 ^ 8 = 16 * hexVal a + hexVal b := by
    have : (268435456 * hexVal a + 16777216 * hexVal b + 1048576 * hexVal c +
        65536 * hexVal d + 4096 * hexVal e + 256 * hexVal f + 16 * hexVal g + hexVal h) /
        2 ^ 24 = 16 * hexVal a + hexVal b := by omega
    rw [this]; omega
  have h2 : (268435456 * hexVal a + 16777216 * hexVal b + 1048576 * hexVal c +
      65536 * hexVal d + 4096 * hexVal e + 256 * hexVal f + 16 * hexVal g + hexVal h) /
      2 ^ 16 % 2 ^ 8 = 16 * hexVal c + hexVal d := by
    have : (268435456 * hexVal a + 16777216 * hexVal b + 1048576 * hexVal c +
        65536 * hexVal d + 4096 * hexVal e + 256 * hexVal f + 16 * hexVal g + hexVal h) /
        2 ^ 16 = 4096 * hexVal a + 256 * hexVal b + 16 * hexVal c + hexVal d := by omega
    rw [this]; omega
  have h3 : (268435456 * hexVal a + 16777216 * hexVal b + 1048576 * hexVal c +
      65536 * hexVal d + 4096 * hexVal e + 256 * hexVal f + 16 * hexVal g + hexVal h) /
      2 ^ 8 % 2 ^ 8 = 16 * hexVal e + hexVal f := by
    have : (268435456 * hexVal a + 16777216 * hexVal b + 1048576 * hexVal c +
        65536 * hexVal d + 4096 * hexVal e + 256 * hexVal f + 16 * hexVal g + hexVal h) /
        2 ^ 8 = 1048576 * hexVal a + 65536 * hexVal b + 4096 * hexVal c +
          256 * hexVal d + 16 * hexVal e + hexVal f := by omega
    rw [this]; omega
  have h4 : (268435456 * hexVal a + 16777216 * hexVal b + 1048576 * hexVal c +
      65536 * hexVal d + 4096 * hexVal e + 256 * hexVal f + 16 * hexVal g + hexVal h) %
      2 ^ 8 = 16 * hexVal g + hexVal h := by omega
  rw [h1, h2, h3, h4]
  congr 1 <;> push_cast <;> ring

/-- A single leading `#` is stripped and does not affect the parse. -/
theorem hex_to_color_hash (l : List Char) (hne : ¬ (l.head? = some '#')) :
    hex_to_color ('#' :: l) = hex_to_color l := by
  rw [hex_to_color, hex_to_color]
  simp only [List.head?_cons, List.tail_cons, if_pos rfl, if_neg hne,
    eq_self_iff_true, if_true]

/-- Any length other than 3, 4, 6 or 8 after `#`-stripping yields the
all -1 sentinel. -/
theorem hex_to_color_bad_len (input : List Char)
    (h3 : (if input.head? = some '#' then input.tail else input).length ≠ 3)
    (h4 : (if input.head? = some '#' then input.tail else input).length ≠ 4)
    (h6 : (if input.head? = some '#' then input.tail else input).length ≠ 6)
    (h8 : (if input.head? = some '#' then input.tail else input).length ≠ 8) :
    hex_to_color input = hexColorSentinel := by
  rw [hex_to_color, hexColorSentinel]
  simp only [if_neg h3, if_neg h4, if_neg h6, if_neg h8]

/-- A color unpacked from a 32-bit word has nonnegative channels, so it
never equals the all -1 sentinel. -/
theorem color_of_u32_ne_sentinel (val : ℕ) : color_of_u32 val ≠ hexColorSentinel := by
  intro h
  have ha := congrArg color.a h
  simp only [color_of_u32, hexColorSentinel] at ha
  have h0 : (0 : ℚ) ≤ ((val % 2 ^ 8 : ℕ) : ℚ) / 255 := by positivity
  rw [ha] at h0
  norm_num at h0

/-- C6: `hex_to_color` accepts an optional leading `#` followed by
exactly 3, 4, 6 or 8 hex digits of either case and returns the
normalized RGBA quadruple (3 digits: duplicated digits with alpha 1;
4 digits: duplicated digits; 6: RRGGBB with alpha 1; 8: RRGGBBAA, each
channel divided by 255); any other digit count returns the all -1
sentinel; "#F00" yields (1,0,0,1) and "00ff0080" yields
(0,1,0,128/255). -/
theorem c6_hex_to_color_lengths :
    (∀ a b c : Char, isHexDigit a = true → isHexDigit b = true →
      isHexDigit c = true →
      hex_to_color [a, b, c] =
        ⟨((17 * hexVal a : ℕ) : ℚ) / 255, ((17 * hexVal b : ℕ) : ℚ) / 255,
          ((17 * hexVal c : ℕ) : ℚ) / 255, 1⟩ ∧
      hex_to_color ['#', a, b, c] = hex_to_color [a, b, c]) ∧
    (∀ a b c d : Char, isHexDigit a = true → isHexDigit b = true →
      isHexDigit c = true → isHexDigit d = true →
      hex_to_color [a, b, c, d] =
        ⟨((17 * hexVal a : ℕ) : ℚ) / 255, ((17 * hexVal b : ℕ) : ℚ) / 255,
          ((17 * hexVal c : ℕ) : ℚ) / 255, ((17 * hexVal d : ℕ) : ℚ) / 255⟩ ∧
      hex_to_color ['#', a, b, c, d] = hex_to_color [a, b, c, d]) ∧
    (∀ a b c d e f : Char, isHexDigit a = true → isHexDigit b = true →
      isHexDigit c = true → isHexDigit d = true → isHexDigit e = true →
      isHexDigit f = true →
      hex_to_color [a, b, c, d, e, f] =
        ⟨((16 * hexVal a + hexVal b : ℕ) : ℚ) / 255,
          ((16 * hexVal c + hexVal d : ℕ) : ℚ) / 255,
          ((16 * hexVal e + hexVal f : ℕ) : ℚ) / 255, 1⟩ ∧
      hex_to_color ['#', a, b, c, d, e, f] = hex_to_color [a, b, c, d, e, f]) ∧
    (∀ a b c d e f g h : Char, isHexDigit a = true → isHexDigit b = true →
      isHexDigit c = true → isHexDigit d = true → isHexDigit e = true →
      isHexDigit f = true → isHexDigit g = true → isHexDigit h = true →
      hex_to_color [a, b, c, d, e, f, g, h] =
        ⟨((16 * hexVal a + hexVal b : ℕ) : ℚ) / 255,
          ((16 * hexVal c + hexVal d : ℕ) : ℚ) / 255,
          ((16 * hexVal e + hexVal f : ℕ) : ℚ) / 255,
          ((16 * hexVal g + hexVal h : ℕ) : ℚ) / 255⟩ ∧
      hex_to_color ['#', a, b, c, d, e, f, g, h] =
        hex_to_color [a, b, c, d, e, f, g, h]) ∧
    (∀ input : List Char,
      (if input.head? = some '#' then input.tail else input).length ≠ 3 →
      (if input.head? = some '#' then input.tail else input).length ≠ 4 →
      (if input.head? = some '#' then input.tail else input).length ≠ 6 →
      (if input.head? = some '#' then input.tail else input).length ≠ 8 →
      hex_to_color input = hexColorSentinel) ∧
    hex_to_color ['#', 'F', '0', '0'] = ⟨1, 0, 0, 1⟩ ∧
    hex_to_color ['0', '0', 'f', 'f', '0', '0', '8', '0'] = ⟨0, 1, 0, 128 / 255⟩ := by
  have hashne : ∀ (x : Char) (l : List Char), isHexDigit x = true →
      ¬ ((x :: l).head? = some '#') := by
    intro x l hx
    simp only [List.head?_cons, Option.some.injEq]
    exact hex_ne_char x hx '#' (by decide)
  refine ⟨?_, ?_, ?_, ?_, hex_to_color_bad_len, ?_, ?_⟩
  · intro a b c ha hb hc
    exact ⟨hex_to_color_hex3 a b c ha hb hc,
      hex_to_color_hash [a, b, c] (hashne a [b, c] ha)⟩
  · intro a b c d ha hb hc hd
    exact ⟨hex_to_color_hex4 a b c d ha hb hc hd,
      hex_to_color_hash [a, b, c, d] (hashne a [b, c, d] ha)⟩
  · intro a b c d e f ha hb hc hd he hf
    exact ⟨hex_to_color_hex6 a b c d e f ha hb hc hd he hf,
      hex_to_color_hash [a, b, c, d, e, f] (hashne a [b, c, d, e, f] ha)⟩
  · intro a b c d e f g h ha hb hc hd he hf hg hh
    exact ⟨hex_to_color_hex8 a b c d e f g h ha hb hc hd he hf hg hh,
      hex_to_color_hash [a, b, c, d, e, f, g, h] (hashne a [b, c, d, e, f, g, h] ha)⟩
  · rw [hex_to_color_hash ['F', '0', '0'] (by decide),
      hex_to_color_hex3 'F' '0' '0' (by decide) (by decide) (by decide)]
    have hF : hexVal 'F' = 15 := by decide
    have h0 : hexVal '0' = 0 := by decide
    rw [hF, h0]
    norm_num
  · rw [hex_to_color_hex8 '0' '0' 'f' 'f' '0' '0' '8' '0' (by decide) (by decide)
      (by decide) (by decide) (by decide) (by decide) (by decide) (by decide)]
    have hf : hexVal 'f' = 15 := by decide
    have h0 : hexVal '0' = 0 := by decide
    have h8 : hexVal '8' = 8 := by decide
    rw [hf, h0, h8]
    norm_num

/-- C9: the sentinel depends only on the digit count after the optional
`#`: every input of accepted length (3, 4, 6 or 8) produces a color,
never the sentinel, with content never validated - a 6-character
all-non-hex string parses as far as possible (no digits) and yields
Color(0,0,0,1). -/
theorem c9_accepted_lengths :
    (∀ input : List Char,
      ((if input.head? = some '#' then input.tail else input).length = 3 ∨
        (if input.head? = some '#' then input.tail else input).length = 4 ∨
        (if input.head? = some '#' then input.tail else input).length = 6 ∨
        (if input.head? = some '#' then input.tail else input).length = 8) →
      hex_to_color input ≠ hexColorSentinel) ∧
    hex_to_color ['z', 'z', 'z', 'z', 'z', 'z'] = ⟨0, 0, 0, 1⟩ := by
  constructor
  · intro input hlen
    rw [hex_to_color]
    rcases hlen with h | h | h | h <;> rw [h] <;> norm_num <;>
      apply color_of_u32_ne_sentinel
  · have hz : isHexDigit 'z' = false := by decide
    have hzs : isSpace 'z' = false := by decide
    have hdrop : (['z', 'z', 'z', 'z', 'z', 'z'] : List Char).dropWhile isSpace =
        ['z', 'z', 'z', 'z', 'z', 'z'] := by
      rw [List.dropWhile_cons, hzs]
      simp
    have hs : strtol16 ['z', 'z', 'z', 'z', 'z', 'z'] = 0 := by
      unfold strtol16
      rw [hdrop]
      have hzm : ¬ ('z' = '-') := by decide
      have hzp : ¬ ('z' = '+') := by decide
      simp only [if_neg hzm, if_neg hzp]
      have : strtolHexNat ['z', 'z', 'z', 'z', 'z', 'z'] = 0 := by
        have hz0 : ¬ ('z' = '0' ∧ ('z' = 'x' ∨ 'z' = 'X')) := by decide
        rw [strtolHexNat, if_neg hz0]
        simp [parseHexDigits, hz]
      rw [this]
      norm_num
    rw [hex_to_color]
    rw [if_neg (by decide : ¬ ((['z', 'z', 'z', 'z', 'z', 'z'] : List Char).head? =
      some '#'))]
    simp only [List.length_cons, List.length_nil]
    norm_num
    rw [hs]
    have hu : u32_of_long 0 = 0 := by rw [u32_of_long]; norm_num
    rw [hu, shl8_or_ff_eq 0 (by norm_num), color_of_u32]
    norm_num

/-- Concrete check of C6 on "F00", "#F00" and the rejected length 2. -/
theorem c6_hex_to_color_lengths_witness :
    (hex_to_color ['F', '0', '0'] =
      ⟨((17 * hexVal 'F' : ℕ) : ℚ) / 255, ((17 * hexVal '0' : ℕ) : ℚ) / 255,
        ((17 * hexVal '0' : ℕ) : ℚ) / 255, 1⟩ ∧
     hex_to_color ['#', 'F', '0', '0'] = hex_to_color ['F', '0', '0']) ∧
    hex_to_color ['a', 'b'] = hexColorSentinel :=
  ⟨c6_hex_to_color_lengths.1 'F' '0' '0' (by decide) (by decide) (by decide),
   c6_hex_to_color_lengths.2.2.2.2.1 ['a', 'b'] (by decide) (by decide) (by decide)
     (by decide)⟩

/-- Concrete check of C9 at an accepted length. -/
theorem c9_accepted_lengths_witness :
    hex_to_color ['a', 'b', 'c'] ≠ hexColorSentinel :=
  c9_accepted_lengths.1 ['a', 'b', 'c'] (Or.inl (by decide))

end Tofi
